import Mathlib

/-!
Verification of the FilChiOC publishing script (`src/app.py`) against its
natural-language specification.

The Python source is shallowly embedded: every pure computation of the script
becomes a Lean function with the same name where possible; the external
collaborators (Google Sheets `execute`, WordPress REST, Facebook Graph,
OpenAI chat, BeautifulSoup's HTML stripper, the wall clock) are passed in as
explicit oracle parameters, and each outward HTTP side effect performed by
the script is recorded in an explicit effect trace.

Modelling conventions (noted where they matter):
* Python `str` is modelled as `String` / `List Char` (Unicode code points,
  matching Python's code-point indexing and slicing).
* Python's `str.strip()` is modelled over the ASCII whitespace characters
  `' '`, `'\t'`, `'\n'`, `'\r'`, `'\x0b'`, `'\x0c'`; `str.lower()` and
  `str.isdigit()` are modelled over ASCII.  All cell values and status
  literals exercised by the specification are ASCII or untouched CJK
  characters, for which these agree with Python.
* `os.getenv` is modelled as a total function `String → String` where the
  empty string stands for "unset or empty" — exactly the values that Python's
  truthiness test `not globals().get(k)` treats as missing.
* `stdout` printing and the fire-and-forget Lark webhook (wrapped in
  `try/except: pass` in the source) are not part of the effect trace.
-/

/-! ## Python string primitives -/

/-- Python whitespace for `str.strip()` (ASCII subset, see header). -/
def pyWs (c : Char) : Bool :=
  c = ' ' || c = '\t' || c = '\n' || c = '\r' || c = '\x0b' || c = '\x0c'

/-- Python `str.strip()` on a list of characters. -/
def pyStrip (s : List Char) : List Char :=
  ((s.dropWhile pyWs).reverse.dropWhile pyWs).reverse

/-- Python `str.strip()` on a `String`. -/
def pyStripS (s : String) : String := ⟨pyStrip s.data⟩

/-- ASCII lower-casing of one character (Python `str.lower()` on ASCII). -/
def asciiLower (c : Char) : Char :=
  if 'A' ≤ c ∧ c ≤ 'Z' then Char.ofNat (c.toNat + 32) else c

/-- Python `str.lower()` (ASCII subset, see header). -/
def pyLowerS (s : String) : String := ⟨s.data.map asciiLower⟩

/-- Normalise newlines: `raw.replace("\r\n", "\n").replace("\r", "\n")`
(`split_raw_if_needed`, src/app.py:168). -/
def normNl : List Char → List Char
  | [] => []
  | '\r' :: '\n' :: rest => '\n' :: normNl rest
  | '\r' :: rest => '\n' :: normNl rest
  | c :: rest => c :: normNl rest

/-- Python `text.split(sep)` for a single-character separator. -/
def splitOnChar (sep : Char) : List Char → List (List Char)
  | [] => [[]]
  | c :: rest =>
    if c = sep then [] :: splitOnChar sep rest
    else
      match splitOnChar sep rest with
      | [] => [[c]]
      | p :: ps => (c :: p) :: ps

/-- First suffix of `s` at which `pat` occurs, i.e. Python's
`s[s.find(pat):]` guarded by `pat in s`; `none` when `pat` does not occur. -/
def firstSuffixWith (pat : List Char) : List Char → Option (List Char)
  | [] => if pat = [] then some [] else none
  | c :: rest =>
    if pat.isPrefixOf (c :: rest) then some (c :: rest)
    else firstSuffixWith pat rest

/-! ## Text segmenter (src/app.py:159-186 and 318-321) -/

/-- The fixed marker literal of `split_raw_if_needed` (src/app.py:182). -/
def anchor : List Char := "【华语社区PH".data

/-- `split_raw_if_needed(raw)` (src/app.py:159-186): first line (up to the
first newline) becomes the title; the body is all the remaining lines,
each stripped, joined by newlines and stripped — unless the anchor literal
occurs anywhere in the normalised text, in which case the body is the text
from the first occurrence of the anchor to the end, stripped.
`splitOnChar '\n'` never returns `[]`, so `headD`/`tail` match the Python
loop over `parts`. -/
def split_raw_if_needed (raw : List Char) : List Char × List Char :=
  if raw = [] then ([], [])
  else
    let text := normNl raw
    let parts := (splitOnChar '\n' text).map pyStrip
    let title := parts.headD []
    let body0 := pyStrip (List.intercalate ['\n'] parts.tail)
    match firstSuffixWith anchor text with
    | some suf => (title, pyStrip suf)
    | none => (title, body0)

/-- `split_raw_if_needed` on `String`s. -/
def split_raw_if_neededS (raw : String) : String × String :=
  (⟨(split_raw_if_needed raw.data).1⟩, ⟨(split_raw_if_needed raw.data).2⟩)

/-- The segmentation step of `process` (src/app.py:318-321): the raw blob is
split only when it is non-empty and at least one of the given title/content
is empty; a non-empty given value always wins (`title = title or t`). -/
def segmentText (raw given_title given_content : String) : String × String :=
  if raw ≠ "" ∧ (given_title = "" ∨ given_content = "") then
    ((if given_title ≠ "" then given_title else (split_raw_if_neededS raw).1),
     (if given_content ≠ "" then given_content else (split_raw_if_neededS raw).2))
  else (given_title, given_content)

/-! ## Term parsing (src/app.py:333-341) -/

/-- Full-width commas become ASCII commas (`s.replace("，", ",")`). -/
def normComma (c : Char) : Char := if c = '，' then ',' else c

/-- Decimal value of a digit token (`int(x)` for a digit-only string). -/
def charsToNat (l : List Char) : Nat :=
  l.foldl (fun a c => a * 10 + (c.toNat - 48)) 0

/-- `parse_int_list(s)` (src/app.py:333-339): split on commas (after
replacing full-width commas), strip each token, and keep the decimal value
of every token that is non-empty and all digits (Python `x.isdigit()`,
modelled over ASCII digits; all tokens considered here are ASCII). -/
def parse_int_list (s : List Char) : List Nat :=
  ((splitOnChar ',' (s.map normComma)).map pyStrip).filterMap
    (fun x => if x ≠ [] ∧ x.all Char.isDigit then some (charsToNat x) else none)

/-- `parse_int_list` on `String`s. -/
def parse_int_listS (s : String) : List Nat := parse_int_list s.data

/-! ## Sheet access helpers (src/app.py:147-156) -/

/-- `header_index_map(header)` (src/app.py:147-149): each header name,
stripped and lower-cased, paired with its 0-based column index.  Python
builds a dict, where a duplicate key keeps the **last** index; lookups below
therefore search the reversed list. -/
def header_index_map (header : List String) : List (String × Nat) :=
  header.enum.map (fun p => (pyLowerS (pyStripS p.2), p.1))

/-- Dict lookup `h.get(key)` over the association list built by
`header_index_map` (last binding wins, as in a Python dict).  A key is in
the dict exactly when this returns `some`. -/
def hmFind (h : List (String × Nat)) (key : String) : Option Nat :=
  (h.reverse.find? (fun p => p.1 = key)).map (fun p => p.2)

/-- `get(row, header_map, key)` (src/app.py:152-156): missing column or a
row too short yields `""`; otherwise the cell value, stripped. -/
def getCell (row : List String) (h : List (String × Nat)) (key : String) : String :=
  match hmFind h key with
  | none => ""
  | some idx => if idx < row.length then pyStripS (row.getD idx "") else ""

/-! ## Column letters (src/app.py:390-397) -/

/-- The loop body of `col_letter` (src/app.py:390-397): repeatedly
`n, r = divmod(n - 1, 26)`, prepending `chr(65 + r)`, until `n` is zero.
The Python `while` loop is embedded with explicit fuel; `n` strictly
decreases each iteration, so any fuel `≥ n` computes the fixpoint
(`colLetterGo_eq_bijChars` below). -/
def colLetterGo : Nat → Nat → List Char → List Char
  | 0, _, acc => acc
  | fuel + 1, n, acc =>
    if n = 0 then acc
    else colLetterGo fuel ((n - 1) / 26) (Char.ofNat (65 + (n - 1) % 26) :: acc)

/-- `col_letter(idx0)` (src/app.py:390-397): bijective base-26 A1 column
label of the 0-based column index. -/
def col_letter (idx0 : Nat) : String := ⟨colLetterGo (idx0 + 1) (idx0 + 1) []⟩

/-- Reference digit expansion of the bijective base-26 numeral system:
`bijChars n` is the letter string whose A1 value is `n` (empty for 0). -/
def bijChars : Nat → List Char
  | 0 => []
  | n + 1 => bijChars (n / 26) ++ [Char.ofNat (65 + n % 26)]
decreasing_by exact Nat.lt_succ_of_le (Nat.div_le_self n 26)

/-- A1 value of a letter string: `A = 1, …, Z = 26, AA = 27, …`. -/
def colVal (l : List Char) : Nat :=
  l.foldl (fun a c => a * 26 + (c.toNat - 64)) 0

/-- A1 value of a `String` column label. -/
def colValS (s : String) : Nat := colVal s.data

/-! ## WordPress client (src/app.py:201-222) -/

/-- The JSON payload built by `wp_create_or_update` (src/app.py:205-213):
`categories`/`tags` are included only when the Python lists are truthy
(non-empty). -/
structure WpPayload where
  title : String
  content : String
  status : String
  categories : Option (List Nat)
  tags : Option (List Nat)
deriving DecidableEq

/-- The relevant fields of the WordPress JSON response
(`resp.get("id")`, `resp.get("link")`). -/
structure WpResp where
  id : Option Nat
  link : Option String
deriving DecidableEq

/-- The posts collection URL (src/app.py:204). -/
def wp_posts_base (baseUrl : String) : String := baseUrl ++ "/wp-json/wp/v2/posts"

/-- `wp_create_or_update` (src/app.py:201-222): one POST request — to
`{base}/{post_id}` when `post_id` is truthy (an update), to `{base}`
otherwise (a create).  The returned list is the trace of issued requests;
`respond` is the remote server, and `raise_for_status` is modelled by the
`Except` it returns: an error response is raised to the caller unchanged. -/
def wp_create_or_update (baseUrl title content status : String)
    (categories tags : List Nat) (post_id : String)
    (respond : String → WpPayload → Except String WpResp) :
    List (String × WpPayload) × Except String WpResp :=
  let data : WpPayload :=
    { title := title, content := content, status := status,
      categories := if categories = [] then none else some categories,
      tags := if tags = [] then none else some tags }
  let url := if post_id ≠ "" then wp_posts_base baseUrl ++ "/" ++ post_id
             else wp_posts_base baseUrl
  ([(url, data)], respond url data)

/-- `str(resp.get("id") or "")` (src/app.py:355): Python's `or` treats the
integer `0` as falsy. -/
def respIdStr (resp : WpResp) : String :=
  match resp.id with
  | none => ""
  | some n => if n = 0 then "" else toString n

/-! ## Facebook client (src/app.py:268-285) -/

/-- Python `s[:n]` (code-point slice). -/
def pyTake (s : String) (n : Nat) : String := ⟨s.data.take n⟩

/-- `build_fb_caption` (src/app.py:268-270). -/
def build_fb_caption (header_line title short_body wp_link : String) : String :=
  pyTake (header_line ++ title ++ "\n" ++ pyStripS short_body ++ "\n原文阅读：" ++ wp_link) 1800

/-- The Graph API feed URL (src/app.py:277). -/
def fb_feed_url (ver page_id : String) : String :=
  "https://graph.facebook.com/" ++ ver ++ "/" ++ page_id ++ "/feed"

/-- `fb_post_after_delay` (src/app.py:273-285): one POST to the page feed
(the fixed-duration sleep has no observable effect in this model); the
request `(url, message, link)` is returned as the trace (the
`access_token` field of the POST data is forwarded to the server but, as a
credential, not traced), and `raise_for_status` again surfaces an error
response unchanged. -/
def fb_post_after_delay (ver page_id token message link : String)
    (respond : String → String → String → String → Except String Unit) :
    (String × String × String) × Except String Unit :=
  let url := fb_feed_url ver page_id
  ((url, message, link), respond url message link token)

/-! ## Spreadsheet write (src/app.py:134-141) -/

/-- `write_cells(range_a1, values)` (src/app.py:134-141): a single
`update(...).execute()` call and nothing else.  The remote endpoint is an
attempt-indexed oracle (`execute k` is what the `k`-th attempt would
return); the source performs exactly one attempt, attempt `0`, so the
result never consults `execute k` for `k ≥ 1`. -/
def write_cells (range_a1 : String) (values : List (List String))
    (execute : Nat → String → List (List String) → Except String Unit) :
    Except String Unit :=
  execute 0 range_a1 values

/-! ## Environment (src/app.py:97-106) -/

/-- The environment variables `ensure_env` requires (src/app.py:99-102). -/
def required_env : List String :=
  ["SPREADSHEET_ID", "WORKSHEET_NAME", "GOOGLE_SERVICE_ACCOUNT_JSON",
   "WP_BASE_URL", "WP_USER", "WP_APP_PASSWORD",
   "OPENAI_API_KEY",
   "FB_PAGE_ID", "FB_PAGE_ACCESS_TOKEN"]

/-- `ensure_env()` (src/app.py:97-106): raise listing the missing required
variables, if any. -/
def ensure_env (env : String → String) : Except String Unit :=
  match required_env.filter (fun k => env k = "") with
  | [] => Except.ok ()
  | missing => Except.error ("缺少必要环境变量：" ++ String.intercalate ", " missing)

/-- `os.getenv(name, default)` for the two optional settings with defaults
(src/app.py:64,69); the empty string models "unset". -/
def envD (env : String → String) (key default_ : String) : String :=
  if env key = "" then default_ else env key

/-! ## The orchestrator (src/app.py:291-407) -/

/-- Outward HTTP side effects performed per row / per write-back cell. -/
inductive Effect
  | wpCall (url : String) (payload : WpPayload)
  | fbCall (url message link : String)
  | cellWrite (rangeA1 : String) (values : List (List String))
deriving DecidableEq

/-- The external collaborators of `process`, as pure oracles:
BeautifulSoup's `html_strip_sample` body, the OpenAI-backed `gen_fb_short`
(its `Except` is the `try/except` at src/app.py:327-330), the WordPress and
Facebook servers, `now_iso()`, and the Sheets `execute` endpoint. -/
structure Oracles where
  htmlStrip : String → Nat → String
  genFb : String → String → Except String String
  wpRespond : String → WpPayload → Except String WpResp
  fbRespond : String → String → String → String → Except String Unit
  nowIso : String
  exec : Nat → String → List (List String) → Except String Unit

/-- The `status == "ready"` branch of `process` (src/app.py:350-363),
including the preceding segmentation (src/app.py:318-321) and term parsing
(src/app.py:341-342) for the fields it uses.  On success the row updates
are `post_id`, `wp_link`, `last_synced`, `status = "done_wp"`; the
`except` at src/app.py:380-382 turns an error into a `last_synced`
diagnostic and leaves `status` unwritten. -/
def readyBranch (env : String → String) (o : Oracles)
    (h : List (String × Nat)) (row : List String) :
    List (String × String) × List Effect :=
  let tc := segmentText (getCell row h "raw") (getCell row h "title") (getCell row h "content")
  if tc.1 = "" ∨ tc.2 = "" then ([], [])
  else
    let wr := wp_create_or_update (env "WP_BASE_URL") tc.1 tc.2
      (envD env "WP_DEFAULT_STATUS" "draft")
      (parse_int_listS (getCell row h "categories"))
      (parse_int_listS (getCell row h "tags"))
      (getCell row h "post_id") o.wpRespond
    (match wr.2 with
     | Except.ok resp =>
       [("post_id", respIdStr resp), ("wp_link", resp.link.getD ""),
        ("last_synced", o.nowIso), ("status", "done_wp")]
     | Except.error e => [("last_synced", "ERROR: " ++ e)],
     wr.1.map (fun q => Effect.wpCall q.1 q.2))

/-- The `status == "done"` branch of `process` (src/app.py:365-374),
including the caption fallback logic of src/app.py:325-330 (whose
OpenAI call sits in its own `try/except` with the stripped-HTML sample as
fallback).  The `fb_header` default is the literal at src/app.py:315. -/
def doneBranch (env : String → String) (o : Oracles)
    (h : List (String × Nat)) (row : List String) :
    List (String × String) × List Effect :=
  let wp_link := getCell row h "wp_link"
  if wp_link = "" then ([], [])
  else
    let tc := segmentText (getCell row h "raw") (getCell row h "title") (getCell row h "content")
    let fb_header := if getCell row h "fb_header" = "" then "【华语社区PH】"
                     else getCell row h "fb_header"
    let fb_caption_short :=
      if getCell row h "fb_caption_short" = "" then
        let fallback := o.htmlStrip tc.2 220
        match o.genFb tc.1 (if fallback ≠ "" then fallback else tc.2) with
        | Except.ok s => s
        | Except.error _ => fallback
      else getCell row h "fb_caption_short"
    let caption := build_fb_caption fb_header tc.1 fb_caption_short wp_link
    let fr := fb_post_after_delay (envD env "FB_API_VERSION" "v19.0")
      (env "FB_PAGE_ID") (env "FB_PAGE_ACCESS_TOKEN") caption wp_link o.fbRespond
    (match fr.2 with
     | Except.ok _ => [("last_synced", o.nowIso), ("status", "done_all")]
     | Except.error e => [("last_synced", "ERROR: " ++ e)],
     [Effect.fbCall fr.1.1 fr.1.2.1 fr.1.2.2])

/-- One iteration of the row loop (src/app.py:305-385): dispatch on the
lower-cased `status` cell; any other status does nothing.  The caption
computation of src/app.py:325-330 is pure given the oracles and its value
is only consumed in the `done` branch, so it is evaluated there. -/
def processRow (env : String → String) (o : Oracles)
    (h : List (String × Nat)) (row : List String) :
    List (String × String) × List Effect :=
  if pyLowerS (getCell row h "status") = "ready" then readyBranch env o h row
  else if pyLowerS (getCell row h "status") = "done" then doneBranch env o h row
  else ([], [])

/-- The row loop (src/app.py:305): rows are numbered from 2 (`enumerate`
with `start=2`); every row is visited. -/
def processAll (env : String → String) (o : Oracles)
    (h : List (String × Nat)) (i : Nat) :
    List (List String) → List (Nat × List (String × String) × List Effect)
  | [] => []
  | row :: rest => (i, processRow env o h row) :: processAll env o h (i + 1) rest

/-- The write-back planning loop (src/app.py:399-405): for each updated
row, each field whose lower-cased key is in the header dict yields one cell
write at `{ws}!{col_letter(col_idx)}{row_idx}`; fields with unknown keys
are skipped (`continue`).  Python's membership test `key.lower() in h`
succeeds exactly when the dict lookup does, hence the single `hmFind`. -/
def writeBackPairs (ws : String) (h : List (String × Nat))
    (updates : List (Nat × List (String × String))) : List (String × String) :=
  updates.flatMap (fun u =>
    u.2.filterMap (fun kv =>
      match hmFind h (pyLowerS kv.1) with
      | none => none
      | some col_idx => some (ws ++ "!" ++ col_letter col_idx ++ toString u.1, kv.2)))

/-- Executing the planned writes in order via `write_cells(a1, [[val]])`
(src/app.py:405): there is no `try/except` here, so the first failing
write aborts with its error; each attempted write is traced. -/
def runWrites (exec : Nat → String → List (List String) → Except String Unit) :
    List (String × String) → List Effect × Except String Unit
  | [] => ([], Except.ok ())
  | (a1, v) :: rest =>
    match write_cells a1 [[v]] exec with
    | Except.error e => ([Effect.cellWrite a1 [[v]]], Except.error e)
    | Except.ok _ =>
      let r := runWrites exec rest
      (Effect.cellWrite a1 [[v]] :: r.1, r.2)

/-- `process()` (src/app.py:291-407): check the environment, read the sheet
(modelled as the given `sheet` value: header row then data rows), run the
row loop collecting the non-empty update dicts, then write back cell by
cell.  The result is the full effect trace paired with the batch outcome:
`Except.error` is an uncaught exception aborting the run. -/
def process (env : String → String) (o : Oracles)
    (sheet : List (List String)) : List Effect × Except String Unit :=
  match ensure_env env with
  | Except.error m => ([], Except.error m)
  | Except.ok _ =>
    match sheet with
    | [] => ([], Except.ok ())
    | header :: rows =>
      let h := header_index_map header
      let rr := processAll env o h 2 rows
      let updates := rr.filterMap (fun x => if x.2.1 ≠ [] then some (x.1, x.2.1) else none)
      let w := runWrites o.exec (writeBackPairs (env "WORKSHEET_NAME") h updates)
      (rr.flatMap (fun x => x.2.2) ++ w.1, w.2)

/-! ## Helper lemmas -/

/-- With enough fuel, the embedded `while` loop of `col_letter` computes
the bijective base-26 digit expansion. -/
theorem colLetterGo_eq_bijChars :
    ∀ (fuel n : Nat) (acc : List Char), n ≤ fuel →
      colLetterGo fuel n acc = bijChars n ++ acc := by
  intro fuel
  induction fuel with
  | zero =>
    intro n acc hn
    interval_cases n
    simp [colLetterGo, bijChars]
  | succ f ih =>
    intro n acc hn
    match n with
    | 0 => simp [colLetterGo, bijChars]
    | m + 1 =>
      rw [colLetterGo, if_neg (Nat.succ_ne_zero m)]
      have hm : m / 26 ≤ f := le_trans (Nat.div_le_self m 26) (Nat.le_of_succ_le_succ hn)
      rw [Nat.succ_sub_one, ih (m / 26) _ hm]
      have hb : bijChars (m + 1) = bijChars (m / 26) ++ [Char.ofNat (65 + m % 26)] := by
        simp [bijChars]
      rw [hb, List.append_assoc, List.singleton_append]

theorem colVal_append_singleton (xs : List Char) (c : Char) :
    colVal (xs ++ [c]) = colVal xs * 26 + (c.toNat - 64) := by
  simp [colVal, List.foldl_append]

theorem digit_char_toNat : ∀ r, r < 26 → (Char.ofNat (65 + r)).toNat = 65 + r := by decide

theorem digit_char_range :
    ∀ r, r < 26 → 'A' ≤ Char.ofNat (65 + r) ∧ Char.ofNat (65 + r) ≤ 'Z' := by decide

/-- The A1 value of the digit expansion of `n` is `n`. -/
theorem colVal_bijChars : ∀ n, colVal (bijChars n) = n := by
  intro n
  induction n using Nat.strong_induction_on with
  | _ n ih =>
    match n with
    | 0 => simp [bijChars, colVal]
    | m + 1 =>
      have hb : bijChars (m + 1) = bijChars (m / 26) ++ [Char.ofNat (65 + m % 26)] := by
        simp [bijChars]
      rw [hb, colVal_append_singleton,
        ih (m / 26) (Nat.lt_succ_of_le (Nat.div_le_self m 26)),
        digit_char_toNat _ (Nat.mod_lt _ (by norm_num))]
      omega

theorem bijChars_range : ∀ n, ∀ c ∈ bijChars n, 'A' ≤ c ∧ c ≤ 'Z' := by
  intro n
  induction n using Nat.strong_induction_on with
  | _ n ih =>
    match n with
    | 0 => simp [bijChars]
    | m + 1 =>
      have hb : bijChars (m + 1) = bijChars (m / 26) ++ [Char.ofNat (65 + m % 26)] := by
        simp [bijChars]
      rw [hb]
      intro c hc
      rcases List.mem_append.mp hc with hl | hr
      · exact ih (m / 26) (Nat.lt_succ_of_le (Nat.div_le_self m 26)) c hl
      · rw [List.mem_singleton.mp hr]
        exact digit_char_range _ (Nat.mod_lt _ (by norm_num))

theorem col_letter_data (n : Nat) : (col_letter n).data = bijChars (n + 1) := by
  show colLetterGo (n + 1) (n + 1) [] = _
  rw [colLetterGo_eq_bijChars _ _ _ (le_refl _), List.append_nil]

/-- If both given values are non-empty, the segmentation step keeps them
(`title = title or t` / `content = content or c` never fire, and the raw
blob is not consulted). -/
theorem segmentText_keep (raw t c : String) (h1 : t ≠ "") (h2 : c ≠ "") :
    segmentText raw t c = (t, c) := by
  unfold segmentText
  rw [if_neg]
  rintro ⟨-, h | h⟩
  · exact h1 h
  · exact h2 h

theorem splitOnChar_ne_nil (sep : Char) (s : List Char) : splitOnChar sep s ≠ [] := by
  induction s with
  | nil => simp [splitOnChar]
  | cons c rest ih =>
    simp only [splitOnChar]
    split
    · simp
    · split <;> simp

theorem splitOnChar_append (sep : Char) (a b : List Char) :
    splitOnChar sep (a ++ sep :: b) = splitOnChar sep a ++ splitOnChar sep b := by
  induction a with
  | nil => simp [splitOnChar]
  | cons c a' ih =>
    by_cases hc : c = sep
    · subst hc
      simp [splitOnChar, ih]
    · obtain ⟨p, ps, hps⟩ := List.exists_cons_of_ne_nil (splitOnChar_ne_nil sep a')
      simp only [List.cons_append, splitOnChar, if_neg hc, List.append_eq, ih, hps,
        List.cons_append]

/-- `firstSuffixWith` finds exactly the first occurrence: if `pat` occurs
at position `pre.length` and at no earlier position, the suffix starting
there is returned. -/
theorem firstSuffixWith_some (pat : List Char) (hp : pat ≠ []) :
    ∀ (pre suf : List Char), pat.isPrefixOf suf = true →
      (∀ k, k < pre.length → pat.isPrefixOf ((pre ++ suf).drop k) = false) →
      firstSuffixWith pat (pre ++ suf) = some suf := by
  intro pre
  induction pre with
  | nil =>
    intro suf hs _
    match suf with
    | [] =>
      cases pat with
      | nil => exact absurd rfl hp
      | cons p ps => simp [List.isPrefixOf] at hs
    | c :: rest =>
      simp only [List.nil_append, firstSuffixWith, if_pos hs]
  | cons a pre' ih =>
    intro suf hs hk
    have h0' : pat.isPrefixOf (a :: (pre' ++ suf)) = false := by
      simpa using hk 0 (Nat.succ_pos _)
    have h0 : ¬ (pat.isPrefixOf (a :: (pre' ++ suf)) = true) := by
      rw [h0']
      exact Bool.false_ne_true
    simp only [List.cons_append, firstSuffixWith, List.append_eq]
    rw [if_neg h0]
    exact ih suf hs (fun k hk' => by simpa using hk (k + 1) (Nat.succ_lt_succ hk'))

/-- If `pat` occurs at no position of `s`, `firstSuffixWith` returns
`none`. -/
theorem firstSuffixWith_none (pat : List Char) (hp : pat ≠ []) :
    ∀ s : List Char, (∀ k, k < s.length → pat.isPrefixOf (s.drop k) = false) →
      firstSuffixWith pat s = none := by
  intro s
  induction s with
  | nil =>
    intro _
    simp [firstSuffixWith, hp]
  | cons c rest ih =>
    intro hk
    have h0 : pat.isPrefixOf (c :: rest) = false := by
      simpa using hk 0 (Nat.succ_pos _)
    simp only [firstSuffixWith, h0, Bool.false_eq_true, if_false]
    exact ih (fun k hk' => by simpa using hk (k + 1) (Nat.succ_lt_succ hk'))

/-- The first element returned by `splitOnChar` is the longest
separator-free initial segment. -/
theorem splitOnChar_head (sep : Char) :
    ∀ s : List Char, ∃ ps,
      splitOnChar sep s = s.takeWhile (fun c => !(c == sep)) :: ps := by
  intro s
  induction s with
  | nil => exact ⟨[], by simp [splitOnChar]⟩
  | cons c rest ih =>
    by_cases hc : c = sep
    · subst hc
      exact ⟨splitOnChar c rest, by simp [splitOnChar, List.takeWhile]⟩
    · obtain ⟨ps, hps⟩ := ih
      refine ⟨ps, ?_⟩
      have hb : (!(c == sep)) = true := by simp [hc]
      simp only [splitOnChar, if_neg hc, hps, List.takeWhile, hb]

/-- A non-empty string has non-empty character data. -/
theorem data_ne_nil_of_ne_empty (s : String) (h : s ≠ "") : s.data ≠ [] := by
  intro hd
  apply h
  cases s with
  | mk d =>
    have hd' : d = [] := hd
    rw [hd']

/-- The title computed by `split_raw_if_needed` is the stripped first line
of the normalised text, whether or not the anchor occurs. -/
theorem split_raw_if_needed_title (raw : List Char) (h : raw ≠ []) :
    (split_raw_if_needed raw).1 =
      pyStrip ((normNl raw).takeWhile (fun c => !(c == '\n'))) := by
  obtain ⟨ps, hps⟩ := splitOnChar_head '\n' (normNl raw)
  unfold split_raw_if_needed
  rw [if_neg h]
  cases hf : firstSuffixWith anchor (normNl raw) <;>
    simp only [hf, hps, List.map_cons, List.headD_cons]

/-- Body of `split_raw_if_needed` when the anchor occurs: the stripped
suffix of the normalised text starting at the first occurrence. -/
theorem split_raw_if_needed_body_anchor (raw pre suf : List Char) (h : raw ≠ [])
    (h2 : normNl raw = pre ++ suf) (h3 : anchor.isPrefixOf suf = true)
    (h4 : ∀ k, k < pre.length → anchor.isPrefixOf ((normNl raw).drop k) = false) :
    (split_raw_if_needed raw).2 = pyStrip suf := by
  have hf : firstSuffixWith anchor (normNl raw) = some suf := by
    rw [h2]
    refine firstSuffixWith_some anchor (by decide) pre suf h3 (fun k hk => ?_)
    rw [← h2]
    exact h4 k hk
  simp only [split_raw_if_needed, if_neg h, hf]

/-- Body of `split_raw_if_needed` when the anchor occurs nowhere: all the
lines after the first, each stripped, joined by newlines, stripped. -/
theorem split_raw_if_needed_body_noanchor (raw : List Char) (h : raw ≠ [])
    (h2 : ∀ k, k < (normNl raw).length → anchor.isPrefixOf ((normNl raw).drop k) = false) :
    (split_raw_if_needed raw).2 =
      pyStrip (List.intercalate ['\n'] (((splitOnChar '\n' (normNl raw)).map pyStrip).tail)) := by
  have hf : firstSuffixWith anchor (normNl raw) = none :=
    firstSuffixWith_none anchor (by decide) _ h2
  simp only [split_raw_if_needed, if_neg h, hf]

/-- With empty given title/content and a non-empty raw blob, the
segmentation step is exactly `split_raw_if_needed`. -/
theorem segmentText_raw (raw : String) (h : raw ≠ "") :
    segmentText raw "" "" = split_raw_if_neededS raw := by
  unfold segmentText
  rw [if_pos ⟨h, Or.inl rfl⟩]
  simp [split_raw_if_neededS]

/-! ## Claim theorems -/

/-- C10: for every 0-based column index `n`, `col_letter` terminates (it is
a total function of `n`; `colLetterGo_eq_bijChars` shows the fuelled loop
reaches its fixpoint) and returns the bijective base-26 A1 column label:
its A1 value is `n + 1`, all its characters are capital letters, and
`0 ↦ "A"`, `25 ↦ "Z"`, `26 ↦ "AA"`, `701 ↦ "ZZ"`. -/
theorem C10_col_letter_bijective_base26 :
    (∀ n : Nat, colValS (col_letter n) = n + 1) ∧
    (∀ n : Nat, ∀ c ∈ (col_letter n).data, 'A' ≤ c ∧ c ≤ 'Z') ∧
    col_letter 0 = "A" ∧ col_letter 25 = "Z" ∧ col_letter 26 = "AA" ∧
    col_letter 701 = "ZZ" := by
  refine ⟨fun n => ?_, fun n c hc => ?_, by decide, by decide, by decide, by decide⟩
  · show colVal (col_letter n).data = n + 1
    rw [col_letter_data, colVal_bijChars]
  · exact bijChars_range (n + 1) c (by rwa [col_letter_data] at hc)

/-- Witness for C10 at concrete inputs: the A1 value of column 730 and a
concrete letter-range instance obtained from the theorem. -/
theorem C10_col_letter_bijective_base26_witness :
    colValS (col_letter 730) = 731 ∧ ('A' ≤ 'B' ∧ 'B' ≤ 'Z') :=
  ⟨C10_col_letter_bijective_base26.1 730,
   C10_col_letter_bijective_base26.2.1 27 'B' (by decide)⟩

/-- C3: when `given_title` and `given_content` are both non-empty, the
segmentation step of `process` returns them unchanged for **every** raw
blob — so the raw blob is never parsed (the result does not depend on
`raw`); in particular `("", "MyTitle", "MyBody") ↦ ("MyTitle", "MyBody")`. -/
theorem C3_manual_override (raw given_title given_content : String)
    (h1 : given_title ≠ "") (h2 : given_content ≠ "") :
    segmentText raw given_title given_content = (given_title, given_content) :=
  segmentText_keep raw given_title given_content h1 h2

/-- Witness for C3: the spec's concrete example, plus a raw blob that
would otherwise be segmented. -/
theorem C3_manual_override_witness :
    ("MyTitle" : String) ≠ "" ∧ ("MyBody" : String) ≠ "" ∧
    segmentText "" "MyTitle" "MyBody" = ("MyTitle", "MyBody") ∧
    segmentText "X\n\n【华语社区PH Y" "MyTitle" "MyBody" = ("MyTitle", "MyBody") :=
  ⟨by decide, by decide,
   C3_manual_override "" "MyTitle" "MyBody" (by decide) (by decide),
   C3_manual_override "X\n\n【华语社区PH Y" "MyTitle" "MyBody" (by decide) (by decide)⟩

/-- C1 refutation: in `"T\n\n【华语社区PH X\n\nY"` the (unique) paragraph
after the first that starts with the marker is `"【华语社区PH X"`, but the
computed body runs from the marker to the end of the blob instead of
stopping at the paragraph. -/
theorem C1_counterexample :
    (segmentText "T\n\n【华语社区PH X\n\nY" "" "").2 = "【华语社区PH X\n\nY" ∧
    (segmentText "T\n\n【华语社区PH X\n\nY" "" "").2 ≠ "【华语社区PH X" :=
  ⟨by decide, by decide⟩

/-- C1 (amended): with empty given title/content, if the marker occurs in
the normalised raw text — first occurrence after the prefix `pre`, i.e.
at no earlier position — the body is the **suffix of the whole text** from
that first occurrence to the end, stripped (not the marker paragraph
alone; the search is a plain substring search, not a per-paragraph scan,
and only this one script variant of the marker is recognised). -/
theorem C1_amended_body_from_first_anchor (raw : String) (pre suf : List Char)
    (h1 : raw ≠ "") (h2 : normNl raw.data = pre ++ suf)
    (h3 : anchor.isPrefixOf suf = true)
    (h4 : ∀ k, k < pre.length → anchor.isPrefixOf ((normNl raw.data).drop k) = false) :
    (segmentText raw "" "").2 = ⟨pyStrip suf⟩ := by
  rw [segmentText_raw raw h1]
  show (⟨(split_raw_if_needed raw.data).2⟩ : String) = _
  rw [split_raw_if_needed_body_anchor raw.data pre suf
    (data_ne_nil_of_ne_empty raw h1) h2 h3 h4]

/-- Witness for C1 (amended) at a concrete blob whose second line starts
with the marker. -/
theorem C1_amended_body_from_first_anchor_witness :
    ("T\n【华语社区PH X" : String) ≠ "" ∧
    (segmentText "T\n【华语社区PH X" "" "").2 = "【华语社区PH X" := by
  refine ⟨by decide, ?_⟩
  have h := C1_amended_body_from_first_anchor "T\n【华语社区PH X" ['T', '\n']
    "【华语社区PH X".data (by decide) (by decide) (by decide) (by decide)
  rw [h]
  decide

/-- C2 refutation: with no marker paragraph, `("A\n\nB\n\nC", "", "")`
yields body `"B\n\nC"` (everything after the first line), not the second
paragraph `"B"` alone. -/
theorem C2_counterexample :
    segmentText "A\n\nB\n\nC" "" "" = ("A", "B\n\nC") ∧
    (segmentText "A\n\nB\n\nC" "" "").2 ≠ "B" :=
  ⟨by decide, by decide⟩

/-- C2 (amended): with empty given title/content, a non-empty raw blob and
no occurrence of the marker anywhere, the title is the stripped **first
line** (up to the first newline — the split is per line, not per
blank-line paragraph, and no HTML stripping or whitespace collapsing is
applied) and the body is all the remaining lines, each stripped, joined
by newlines and stripped — not the second paragraph alone. -/
theorem C2_amended_title_first_line_body_rest (raw : String) (h1 : raw ≠ "")
    (h2 : ∀ k, k < (normNl raw.data).length →
      anchor.isPrefixOf ((normNl raw.data).drop k) = false) :
    segmentText raw "" "" =
      (⟨pyStrip ((normNl raw.data).takeWhile (fun c => !(c == '\n')))⟩,
       ⟨pyStrip (List.intercalate ['\n']
         (((splitOnChar '\n' (normNl raw.data)).map pyStrip).tail))⟩) := by
  rw [segmentText_raw raw h1]
  have hd := data_ne_nil_of_ne_empty raw h1
  show ((⟨(split_raw_if_needed raw.data).1⟩ : String),
    (⟨(split_raw_if_needed raw.data).2⟩ : String)) = _
  rw [split_raw_if_needed_title raw.data hd,
    split_raw_if_needed_body_noanchor raw.data hd h2]

/-- Witness for C2 (amended) at the spec's example blob. -/
theorem C2_amended_title_first_line_body_rest_witness :
    ("A\n\nB\n\nC" : String) ≠ "" ∧
    segmentText "A\n\nB\n\nC" "" "" = ("A", "B\n\nC") := by
  refine ⟨by decide, ?_⟩
  rw [C2_amended_title_first_line_body_rest "A\n\nB\n\nC" (by decide) (by decide)]
  decide

/-- C4 refutation: on `"10, News, 新闻"` the code returns `[10]` — the
non-numeric tokens are silently dropped (there is no name/slug lookup and
no auto-creation), so the claimed `[10, 5, 99]` is impossible. -/
theorem C4_counterexample :
    parse_int_listS "10, News, 新闻" = [10] ∧ ([10] : List Nat) ≠ [10, 5, 99] :=
  ⟨by decide, by decide⟩

/-- C4 (amended): term parsing splits on ASCII and full-width commas and
processes tokens independently in first-occurrence order — splitting at
any comma is a homomorphism, so duplicates are preserved and there is no
deduplication; each purely numeric token contributes its literal ID and
every other token is dropped silently.  Concretely `"10, News, 新闻" ↦
[10]` and `"1，2, x, 2" ↦ [1, 2, 2]`. -/
theorem C4_amended_numeric_tokens_only (s t : List Char) :
    parse_int_list (s ++ '，' :: t) = parse_int_list s ++ parse_int_list t ∧
    parse_int_list (s ++ ',' :: t) = parse_int_list s ++ parse_int_list t ∧
    parse_int_listS "10, News, 新闻" = [10] ∧
    parse_int_listS "1，2, x, 2" = [1, 2, 2] := by
  refine ⟨?_, ?_, by decide, by decide⟩
  · unfold parse_int_list
    simp only [List.map_append, List.map_cons]
    have hcomma : normComma '，' = ',' := by decide
    rw [hcomma, splitOnChar_append, List.map_append, List.filterMap_append]
  · unfold parse_int_list
    simp only [List.map_append, List.map_cons]
    have hcomma : normComma ',' = ',' := by decide
    rw [hcomma, splitOnChar_append, List.map_append, List.filterMap_append]

/-- C5: when a non-empty `post_id` is supplied, `wp_create_or_update`
issues exactly one request — an update POST against
`{posts base}/{post_id}` — never the create endpoint, and a rejection by
the remote server (`raise_for_status`) is returned to the caller as that
very error: it is not converted into a create (no second request exists in
the trace).  Only an empty `post_id` posts to the bare collection URL. -/
theorem C5_update_targets_id_never_create (baseUrl title content status : String)
    (categories tags : List Nat) (post_id : String)
    (respond : String → WpPayload → Except String WpResp)
    (h : post_id ≠ "") :
    ∃ p : WpPayload,
      (wp_create_or_update baseUrl title content status categories tags post_id
        respond).1 = [(wp_posts_base baseUrl ++ "/" ++ post_id, p)] ∧
      (∀ q ∈ (wp_create_or_update baseUrl title content status categories tags post_id
        respond).1, q.1 ≠ wp_posts_base baseUrl) ∧
      (∀ e, respond (wp_posts_base baseUrl ++ "/" ++ post_id) p = Except.error e →
        (wp_create_or_update baseUrl title content status categories tags post_id
          respond).2 = Except.error e) := by
  have hurl : wp_posts_base baseUrl ++ "/" ++ post_id ≠ wp_posts_base baseUrl := by
    intro he
    have hlen := congrArg (fun s => s.data.length) he
    simp only [String.data_append, List.length_append] at hlen
    have hone : ("/" : String).data.length = 1 := by decide
    rw [hone] at hlen
    omega
  refine ⟨{ title := title, content := content, status := status,
            categories := if categories = [] then none else some categories,
            tags := if tags = [] then none else some tags }, ?_, ?_, ?_⟩
  · simp [wp_create_or_update, if_pos h]
  · intro q hq
    simp only [wp_create_or_update, if_pos h, List.mem_singleton] at hq
    rw [hq]
    exact hurl
  · intro e he
    simp [wp_create_or_update, if_pos h, he]

/-- Witness for C5: a concrete update whose server rejects the identifier
with a 404-style error; the error is surfaced, and the sole request in the
trace targets `/posts/12`. -/
theorem C5_update_targets_id_never_create_witness :
    ("12" : String) ≠ "" ∧
    ∃ p : WpPayload,
      (wp_create_or_update "https://example.com" "T" "C" "draft" [] [] "12"
        (fun _ _ => Except.error "404 Client Error")).1
        = [(wp_posts_base "https://example.com" ++ "/" ++ "12", p)] ∧
      (∀ q ∈ (wp_create_or_update "https://example.com" "T" "C" "draft" [] [] "12"
        (fun _ _ => Except.error "404 Client Error")).1,
        q.1 ≠ wp_posts_base "https://example.com") ∧
      (∀ e, (fun (_ : String) (_ : WpPayload) => (Except.error "404 Client Error" :
          Except String WpResp)) (wp_posts_base "https://example.com" ++ "/" ++ "12") p
            = Except.error e →
        (wp_create_or_update "https://example.com" "T" "C" "draft" [] [] "12"
          (fun _ _ => Except.error "404 Client Error")).2 = Except.error e) :=
  ⟨by decide,
   C5_update_targets_id_never_create "https://example.com" "T" "C" "draft" [] [] "12"
     (fun _ _ => Except.error "404 Client Error") (by decide)⟩

/-- The effect trace of the `done` branch never contains a WordPress call:
it is either empty or a single Facebook feed post. -/
theorem doneBranch_no_wpCall (env : String → String) (o : Oracles)
    (h : List (String × Nat)) (row : List String) (u : String) (p : WpPayload) :
    Effect.wpCall u p ∉ (doneBranch env o h row).2 := by
  unfold doneBranch
  by_cases hw : getCell row h "wp_link" = ""
  · rw [if_pos hw]
    simp
  · rw [if_neg hw]
    simp

/-- C6 refutation: a row whose status is `done` (hence not `ready`) with a
non-empty `wp_link` is **not** skipped as a no-op — it triggers a Facebook
feed post and a row update — so "rows in any other status are skipped" is
false as stated. -/
theorem C6_counterexample :
    pyLowerS (getCell ["done", "T", "C", "http://x", "cap"]
      (header_index_map ["status", "title", "content", "wp_link", "fb_caption_short"])
      "status") ≠ "ready" ∧
    (processRow (fun _ => "x")
      ⟨fun _ _ => "", fun _ _ => Except.ok "", fun _ _ => Except.ok ⟨some 1, some "L"⟩,
       fun _ _ _ _ => Except.ok (), "TS", fun _ _ _ => Except.ok ()⟩
      (header_index_map ["status", "title", "content", "wp_link", "fb_caption_short"])
      ["done", "T", "C", "http://x", "cap"]).1 ≠ [] :=
  ⟨by decide, by decide⟩

/-- C6 (amended): a row whose status cell, lower-cased, is not exactly
`"ready"` never reaches the WordPress publisher (no `wpCall` effect), and
a row whose status is neither `"ready"` nor `"done"` is a strict no-op
(no updates, no effects, no error — `processRow` is total); a `"done"`
row, however, may post to Facebook. -/
theorem C6_amended_not_ready_no_publish (env : String → String) (o : Oracles)
    (h : List (String × Nat)) (row : List String) :
    (pyLowerS (getCell row h "status") ≠ "ready" →
      ∀ u p, Effect.wpCall u p ∉ (processRow env o h row).2) ∧
    (pyLowerS (getCell row h "status") ≠ "ready" →
      pyLowerS (getCell row h "status") ≠ "done" →
      processRow env o h row = ([], [])) := by
  constructor
  · intro hr u p
    unfold processRow
    rw [if_neg hr]
    by_cases hd : pyLowerS (getCell row h "status") = "done"
    · rw [if_pos hd]
      exact doneBranch_no_wpCall env o h row u p
    · rw [if_neg hd]
      simp
  · intro hr hd
    unfold processRow
    rw [if_neg hr, if_neg hd]

/-- Witness for C6 (amended): a `done` row issues no WordPress call, and a
row in an unrecognised status is a strict no-op. -/
theorem C6_amended_not_ready_no_publish_witness :
    Effect.wpCall "u" ⟨"", "", "", none, none⟩ ∉
      (processRow (fun _ => "x")
        ⟨fun _ _ => "", fun _ _ => Except.ok "", fun _ _ => Except.ok ⟨some 1, some "L"⟩,
         fun _ _ _ _ => Except.ok (), "TS", fun _ _ _ => Except.ok ()⟩
        (header_index_map ["status", "title", "content", "wp_link", "fb_caption_short"])
        ["done", "T", "C", "http://x", "cap"]).2 ∧
    processRow (fun _ => "x")
      ⟨fun _ _ => "", fun _ _ => Except.ok "", fun _ _ => Except.ok ⟨some 1, some "L"⟩,
       fun _ _ _ _ => Except.ok (), "TS", fun _ _ _ => Except.ok ()⟩
      (header_index_map ["status", "title", "content", "wp_link", "fb_caption_short"])
      ["paused", "T", "C", "http://x", "cap"] = ([], []) :=
  ⟨(C6_amended_not_ready_no_publish _ _ _ _).1 (by decide) "u" ⟨"", "", "", none, none⟩,
   (C6_amended_not_ready_no_publish _ _ _ _).2 (by decide) (by decide)⟩

/-- A `ready` row dispatches to `readyBranch`. -/
theorem processRow_ready (env : String → String) (o : Oracles)
    (h : List (String × Nat)) (row : List String)
    (hs : pyLowerS (getCell row h "status") = "ready") :
    processRow env o h row = readyBranch env o h row := by
  unfold processRow
  rw [if_pos hs]

/-- A `done` row dispatches to `doneBranch`. -/
theorem processRow_done (env : String → String) (o : Oracles)
    (h : List (String × Nat)) (row : List String)
    (hs : pyLowerS (getCell row h "status") = "done") :
    processRow env o h row = doneBranch env o h row := by
  unfold processRow
  rw [if_neg (by rw [hs]; decide), if_pos hs]

/-- When the WordPress server rejects the publish attempt of a `ready` row
with error `e`, the row's updates are exactly the `last_synced`
diagnostic. -/
theorem readyBranch_error (env : String → String) (o : Oracles)
    (h : List (String × Nat)) (row : List String) (e : String)
    (ht : getCell row h "title" ≠ "") (hc : getCell row h "content" ≠ "")
    (hw : ∀ u p, o.wpRespond u p = Except.error e) :
    (readyBranch env o h row).1 = [("last_synced", "ERROR: " ++ e)] := by
  have hseg := segmentText_keep (getCell row h "raw") _ _ ht hc
  unfold readyBranch
  rw [hseg]
  rw [if_neg (by rintro (h' | h') <;> [exact ht h'; exact hc h'])]
  simp only [wp_create_or_update, hw]

/-- When the Facebook server rejects the feed post of a `done` row with
error `e`, the row's updates are exactly the `last_synced` diagnostic. -/
theorem doneBranch_error (env : String → String) (o : Oracles)
    (h : List (String × Nat)) (row : List String) (e : String)
    (hwl : getCell row h "wp_link" ≠ "")
    (hf : ∀ u m l t, o.fbRespond u m l t = Except.error e) :
    (doneBranch env o h row).1 = [("last_synced", "ERROR: " ++ e)] := by
  unfold doneBranch
  rw [if_neg hwl]
  simp only [fb_post_after_delay, hf]

/-- The row loop visits every row: it is a homomorphism on row lists (one
row's outcome cannot prevent later rows from being processed, since
`processRow` is total). -/
theorem processAll_append (env : String → String) (o : Oracles)
    (h : List (String × Nat)) (i : Nat) (xs ys : List (List String)) :
    processAll env o h i (xs ++ ys) =
      processAll env o h i xs ++ processAll env o h (i + xs.length) ys := by
  induction xs generalizing i with
  | nil => simp [processAll]
  | cons r rs ih =>
    simp only [List.cons_append, processAll, List.append_eq, ih (i + 1), List.length_cons]
    have hi : i + (rs.length + 1) = i + 1 + rs.length := by omega
    rw [hi]

/-- A configuration error aborts `process` before any row: the result is
the error with an **empty** effect trace. -/
theorem process_config_abort (env : String → String) (o : Oracles)
    (sheet : List (List String)) (m : String)
    (hm : ensure_env env = Except.error m) :
    process env o sheet = ([], Except.error m) := by
  unfold process
  rw [hm]

/-- C7 refutation: with a complete environment (no configuration error), a
spreadsheet write failure during the write-back phase aborts the whole
batch — so "only configuration errors abort the whole batch" is false as
stated. -/
theorem C7_counterexample :
    ensure_env (fun _ => "x") = Except.ok () ∧
    (process (fun _ => "x")
      ⟨fun _ _ => "", fun _ _ => Except.ok "", fun _ _ => Except.ok ⟨some 7, some "http://L"⟩,
       fun _ _ _ _ => Except.ok (), "TS", fun _ _ _ => Except.error "boom"⟩
      [["status", "title", "content", "post_id", "wp_link", "last_synced"],
       ["ready", "T", "C"]]).2 = Except.error "boom" :=
  ⟨rfl, rfl⟩

/-- C7 (amended): a configuration error (missing required environment
value) aborts `process` before any row — error result, empty effect
trace; a WordPress rejection on a `ready` row, or a Facebook rejection on
a `done` row, is caught: the row's updates are exactly the
`"ERROR: ..."` diagnostic in `last_synced`, the `status` column is never
written (the row stays retryable), and every other row is still processed
(`processAll` is a homomorphism on row lists).  A failure while writing
results back to the spreadsheet, however, also aborts the batch
(`C7_counterexample`). -/
theorem C7_amended_row_errors_caught (env : String → String) (o : Oracles)
    (sheet : List (List String)) (h : List (String × Nat)) (row : List String)
    (e : String) :
    (∀ m, ensure_env env = Except.error m → process env o sheet = ([], Except.error m)) ∧
    (pyLowerS (getCell row h "status") = "ready" →
      getCell row h "title" ≠ "" → getCell row h "content" ≠ "" →
      (∀ u p, o.wpRespond u p = Except.error e) →
      (processRow env o h row).1 = [("last_synced", "ERROR: " ++ e)] ∧
      ∀ v, ("status", v) ∉ (processRow env o h row).1) ∧
    (pyLowerS (getCell row h "status") = "done" →
      getCell row h "wp_link" ≠ "" →
      (∀ u m2 l t, o.fbRespond u m2 l t = Except.error e) →
      (processRow env o h row).1 = [("last_synced", "ERROR: " ++ e)] ∧
      ∀ v, ("status", v) ∉ (processRow env o h row).1) ∧
    (∀ i xs ys, processAll env o h i (xs ++ ys) =
      processAll env o h i xs ++ processAll env o h (i + xs.length) ys) := by
  refine ⟨fun m hm => process_config_abort env o sheet m hm,
    fun hs ht hc hw => ?_, fun hs hwl hf => ?_,
    fun i xs ys => processAll_append env o h i xs ys⟩
  · have hupd : (processRow env o h row).1 = [("last_synced", "ERROR: " ++ e)] := by
      rw [processRow_ready env o h row hs]
      exact readyBranch_error env o h row e ht hc hw
    refine ⟨hupd, fun v hv => ?_⟩
    rw [hupd] at hv
    have h1 := List.mem_singleton.mp hv
    have h2 : "status" = "last_synced" := congrArg Prod.fst h1
    exact absurd h2 (by decide)
  · have hupd : (processRow env o h row).1 = [("last_synced", "ERROR: " ++ e)] := by
      rw [processRow_done env o h row hs]
      exact doneBranch_error env o h row e hwl hf
    refine ⟨hupd, fun v hv => ?_⟩
    rw [hupd] at hv
    have h1 := List.mem_singleton.mp hv
    have h2 : "status" = "last_synced" := congrArg Prod.fst h1
    exact absurd h2 (by decide)

/-- Witness for C7 (amended): a missing `OPENAI_API_KEY` aborts with an
empty trace, and a concrete `ready` row whose publish is rejected with
"boom" records exactly the diagnostic. -/
theorem C7_amended_row_errors_caught_witness :
    process (fun k => if k = "OPENAI_API_KEY" then "" else "x")
      ⟨fun _ _ => "", fun _ _ => Except.ok "", fun _ _ => Except.ok ⟨some 1, some "L"⟩,
       fun _ _ _ _ => Except.ok (), "TS", fun _ _ _ => Except.ok ()⟩ []
      = ([], Except.error "缺少必要环境变量：OPENAI_API_KEY") ∧
    (processRow (fun _ => "x")
      ⟨fun _ _ => "", fun _ _ => Except.ok "", fun _ _ => Except.error "boom",
       fun _ _ _ _ => Except.ok (), "TS", fun _ _ _ => Except.ok ()⟩
      (header_index_map ["status", "title", "content"])
      ["ready", "T", "C"]).1 = [("last_synced", "ERROR: boom")] :=
  ⟨(C7_amended_row_errors_caught (fun k => if k = "OPENAI_API_KEY" then "" else "x")
      ⟨fun _ _ => "", fun _ _ => Except.ok "", fun _ _ => Except.ok ⟨some 1, some "L"⟩,
       fun _ _ _ _ => Except.ok (), "TS", fun _ _ _ => Except.ok ()⟩ [] [] [] "").1
      "缺少必要环境变量：OPENAI_API_KEY" rfl,
   ((C7_amended_row_errors_caught (fun _ => "x")
      ⟨fun _ _ => "", fun _ _ => Except.ok "", fun _ _ => Except.error "boom",
       fun _ _ _ _ => Except.ok (), "TS", fun _ _ _ => Except.ok ()⟩ []
      (header_index_map ["status", "title", "content"])
      ["ready", "T", "C"] "boom").2.1
      (by decide) (by decide) (by decide) (fun u p => rfl)).1⟩

/-- C8 refutation: a write whose first attempt raises an error containing
"Connection reset" propagates that very error even though a retry
(attempt 1) would have succeeded — `write_cells` has no retry logic at
all. -/
theorem C8_counterexample :
    write_cells "Sheet1!A2" [["v"]]
      (fun k _ _ => if k = 0 then Except.error "Connection reset" else Except.ok ())
      = Except.error "Connection reset" ∧
    (fun k (_ : String) (_ : List (List String)) =>
      if k = 0 then (Except.error "Connection reset" : Except String Unit)
      else Except.ok ()) 1 "Sheet1!A2" [["v"]] = Except.ok () :=
  ⟨rfl, rfl⟩

/-- C8 (amended): `write_cells` performs exactly one attempt: its result
is attempt 0's outcome, whatever the error message says — there is no
transient-error allow-list, no backoff and no retry, so every error
(including "Connection reset") propagates immediately, and the result
never depends on what later attempts would return. -/
theorem C8_amended_single_attempt (range_a1 : String) (values : List (List String))
    (execute execute' : Nat → String → List (List String) → Except String Unit)
    (h : ∀ r v, execute 0 r v = execute' 0 r v) :
    write_cells range_a1 values execute = execute 0 range_a1 values ∧
    write_cells range_a1 values execute = write_cells range_a1 values execute' := by
  refine ⟨rfl, ?_⟩
  unfold write_cells
  rw [h]

/-- Witness for C8 (amended): the "Connection reset" error of attempt 0 is
the result, independently of an attempt-1 success. -/
theorem C8_amended_single_attempt_witness :
    write_cells "Sheet1!A2" [["v"]]
      (fun k _ _ => if k = 0 then Except.error "Connection reset" else Except.ok ())
      = Except.error "Connection reset" :=
  (C8_amended_single_attempt "Sheet1!A2" [["v"]]
    (fun k _ _ => if k = 0 then Except.error "Connection reset" else Except.ok ())
    (fun _ _ _ => Except.error "Connection reset")
    (fun _ _ => rfl)).1

/-- `filterMap` ignores exactly the elements its function rejects. -/
theorem filterMap_eq_filterMap_filter {α β : Type} (f : α → Option β)
    (p : α → Bool) (hp : ∀ x, (f x).isSome = p x) :
    ∀ l : List α, l.filterMap f = (l.filter p).filterMap f := by
  intro l
  induction l with
  | nil => simp
  | cons x xs ih =>
    by_cases hx : p x = true
    · rw [List.filter_cons_of_pos hx]
      cases hf : f x with
      | none =>
        exfalso
        have := hp x
        rw [hf, hx] at this
        exact Bool.false_ne_true this
      | some b =>
        rw [List.filterMap_cons_some hf, List.filterMap_cons_some hf, ih]
    · have hx' : p x = false := Bool.eq_false_iff.mpr hx
      rw [List.filter_cons_of_neg (by rw [hx']; exact Bool.false_ne_true)]
      cases hf : f x with
      | none => rw [List.filterMap_cons_none hf, ih]
      | some b =>
        exfalso
        have hb := hp x
        rw [hf, hx'] at hb
        simp at hb

/-- One step of the write-back plan. -/
theorem writeBackPairs_cons (ws : String) (h : List (String × Nat))
    (u : Nat × List (String × String)) (us : List (Nat × List (String × String))) :
    writeBackPairs ws h (u :: us) =
      u.2.filterMap (fun kv =>
        match hmFind h (pyLowerS kv.1) with
        | none => none
        | some col_idx => some (ws ++ "!" ++ col_letter col_idx ++ toString u.1, kv.2))
      ++ writeBackPairs ws h us := by
  unfold writeBackPairs
  rw [List.flatMap_cons]

/-- C9: the write-back loop silently drops every update field whose
lower-cased key is absent from the header map — the planned writes are
unchanged if those fields are filtered away first, and no error is
possible (`writeBackPairs` is total) — and every cell write it does plan
targets a column found in the header map. -/
theorem C9_writeback_header_frame (ws : String) (h : List (String × Nat))
    (updates : List (Nat × List (String × String))) :
    writeBackPairs ws h updates =
      writeBackPairs ws h (updates.map (fun u =>
        (u.1, u.2.filter (fun kv => (hmFind h (pyLowerS kv.1)).isSome)))) ∧
    (∀ a1 v, (a1, v) ∈ writeBackPairs ws h updates →
      ∃ (key : String) (col_idx row_idx : Nat), hmFind h key = some col_idx ∧
        a1 = ws ++ "!" ++ col_letter col_idx ++ toString row_idx) := by
  constructor
  · induction updates with
    | nil => rfl
    | cons u us ih =>
      rw [List.map_cons, writeBackPairs_cons, writeBackPairs_cons, ih]
      congr 1
      exact filterMap_eq_filterMap_filter _ _
        (fun kv => by cases hmFind h (pyLowerS kv.1) <;> rfl) u.2
  · intro a1 v hv
    unfold writeBackPairs at hv
    rw [List.mem_flatMap] at hv
    obtain ⟨u, hu, hkv⟩ := hv
    rw [List.mem_filterMap] at hkv
    obtain ⟨kv, _, hkv2⟩ := hkv
    cases hfind : hmFind h (pyLowerS kv.1) with
    | none => rw [hfind] at hkv2; exact absurd hkv2 (by simp)
    | some col_idx =>
      rw [hfind] at hkv2
      refine ⟨pyLowerS kv.1, col_idx, u.1, hfind, ?_⟩
      have := (Option.some.injEq _ _).mp hkv2
      exact (congrArg Prod.fst this).symm

/-- Witness for C9: with header `["status", "post_id"]`, the unknown field
`"nope"` plans no write, and the planned write for `post_id` of row 2
lands in column `B`. -/
theorem C9_writeback_header_frame_witness :
    ∃ (key : String) (col_idx row_idx : Nat),
      hmFind (header_index_map ["status", "post_id"]) key = some col_idx ∧
      "Sheet1!B2" = "Sheet1" ++ "!" ++ col_letter col_idx ++ toString row_idx :=
  (C9_writeback_header_frame "Sheet1" (header_index_map ["status", "post_id"])
    [(2, [("post_id", "7"), ("nope", "x")])]).2 "Sheet1!B2" "7" (by decide)
